import Mathlib

/-!
Verification of the recipe-app-api core logic (Django REST backend) against
its natural-language specification.  The Python source is shallowly embedded:

* `Entity`/`EStore` model the `Tag` and `Ingredients` tables together with the
  corresponding many-to-many through rows (`Recipe.tag`, `Recipe.ingredients`).
  Both tables have the shape `(id, user, name)` and are manipulated by the same
  code pattern in `recipe/serializers.py`, so the store layer is defined once
  and instantiated twice inside `DB`.
* `EStore.get_or_create` embeds `Tag.objects.get_or_create(user=..., name=...)`
  (respectively `Ingredients.objects.get_or_create`): look the row up by
  `(user, name)`, create a fresh row with the next id when absent.  Django's
  `get_or_create` returns the single matching row; the `find?` here agrees with
  it on every store satisfying the `(user, name)`-uniqueness invariant `Wf`,
  which all theorems below assume and which the operations preserve.
* `EStore.m2m_add` embeds `recipe.tag.add(obj)` / `recipe.ingredients.add(obj)`
  (adding an existing association is a no-op), `EStore.m2m_clear` embeds
  `instance.tag.clear()` / `instance.ingredients.clear()`.
-/

/-- Row of the `Tag` or `Ingredients` table: `(id, user_id, name)`. -/
structure Entity where
  id : Nat
  user : Nat
  name : String
deriving DecidableEq

/-- One side of the database: the entity rows, the auto-increment counter for
their primary key, and the many-to-many through rows `(recipe_id, entity_id)`
linking recipes to these entities. -/
structure EStore where
  rows : List Entity
  nextId : Nat
  mems : List (Nat × Nat)
deriving DecidableEq

namespace EStore

/-- Embeds `Tag.objects.get_or_create(user=auth_user, name=n)` (and the
identical call on `Ingredients`): return the existing `(user, name)` row, or
insert a fresh row with the next primary key.  Returns the updated store and
the id of the obtained row. -/
def get_or_create (s : EStore) (u : Nat) (n : String) : EStore × Nat :=
  match s.rows.find? (fun t => t.user == u && t.name == n) with
  | some t => (s, t.id)
  | none =>
      ({ s with rows := s.rows ++ [⟨s.nextId, u, n⟩], nextId := s.nextId + 1 },
       s.nextId)

/-- Embeds `recipe.tag.add(tag_obj)`: insert the through row
`(recipe_id, entity_id)` unless it is already present (Django ignores
duplicate `add`). -/
def m2m_add (s : EStore) (rid tid : Nat) : EStore :=
  if (rid, tid) ∈ s.mems then s else { s with mems := s.mems ++ [(rid, tid)] }

/-- Embeds `instance.tag.clear()`: drop every association of recipe `rid`. -/
def m2m_clear (s : EStore) (rid : Nat) : EStore :=
  { s with mems := s.mems.filter (fun p => p.1 != rid) }

/-- One loop iteration of `RecipeSerializer._get_or_create_tags` (resp.
`_get_or_create_ingredients`): `get_or_create` the named entity for the
authenticated user, then attach it to the recipe. -/
def attach_one (s : EStore) (u : Nat) (n : String) (rid : Nat) : EStore :=
  let p := s.get_or_create u n
  p.1.m2m_add rid p.2

/-- Embeds the loop body of `RecipeSerializer._get_or_create_tags(tags, recipe)`
(resp. `_get_or_create_ingredients`): the validated payload is the list of the
candidate names, processed in order. -/
def get_or_create_all (s : EStore) (u : Nat) (names : List String) (rid : Nat) :
    EStore :=
  names.foldl (fun acc n => acc.attach_one u n rid) s

/-- Store invariant maintained by the application logic: every row id is below
the auto-increment counter, row ids are pairwise distinct, and at most one row
exists per `(user, name)` pair (the implicit dedup key of the spec). -/
def Wf (s : EStore) : Prop :=
  (∀ t ∈ s.rows, t.id < s.nextId) ∧
  s.rows.Pairwise (fun a b => a.id ≠ b.id) ∧
  s.rows.Pairwise (fun a b => ¬(a.user = b.user ∧ a.name = b.name))

instance (s : EStore) : Decidable s.Wf := by
  unfold Wf; infer_instance

/-- Outcome of one reconciliation pass (`_get_or_create_tags` /
`_get_or_create_ingredients`) run over store `s` for owner `u`, name list
`names` and target recipe `rid`, producing store `out`:

1. every entity the owner already had whose name is requested is reused —
   it gets attached, it is still present, and it remains the only row for its
   `(owner, name)` key (no duplicate row is created);
2. for every requested name there is exactly one attached entity id carrying
   that name for the owner;
3. nothing else is attached: every association of the recipe points at an
   owner entity whose name was requested. -/
def ReconcileOutcome (s out : EStore) (u : Nat) (names : List String)
    (rid : Nat) : Prop :=
  (∀ t ∈ s.rows, t.user = u → t.name ∈ names →
      (rid, t.id) ∈ out.mems ∧ t ∈ out.rows ∧
        ∀ t2 ∈ out.rows, t2.user = u → t2.name = t.name → t2 = t) ∧
  (∀ n ∈ names, ∃! tid, (rid, tid) ∈ out.mems ∧
      ∃ t ∈ out.rows, t.id = tid ∧ t.user = u ∧ t.name = n) ∧
  (∀ tid, (rid, tid) ∈ out.mems →
      ∃ t ∈ out.rows, t.id = tid ∧ t.user = u ∧ t.name ∈ names)

end EStore


/-- Row of the `Recipe` table (`core/models.py`): owner foreign key and scalar
columns.  `price` is a `DecimalField(max_digits=5, decimal_places=2)`; it is
modelled as the integer count of hundredths.  The `image` file field is not
involved in any claim and is omitted.  The many-to-many columns `tag` and
`ingredients` live in the two `EStore`s of `DB`. -/
structure Recipe where
  id : Nat
  user : Nat
  title : String
  description : String
  time_in_minutes : Int
  price : Int
  link : String
deriving DecidableEq

/-- The relational database, as far as the recipe API touches it: the `Tag`
table with the `Recipe.tag` through rows, the `Ingredients` table with the
`Recipe.ingredients` through rows, and the `Recipe` table with its
auto-increment counter. -/
structure DB where
  tagStore : EStore
  ingStore : EStore
  recipes : List Recipe
  nextRecipeId : Nat
deriving DecidableEq

namespace RecipeSerializer

/-- Fields declared in `RecipeSerializer.Meta.fields`
(`recipe/serializers.py`): the owner (`user`) column and `description` are not
among them; `id` is additionally read-only. -/
def fields : List String :=
  ["id", "title", "time_in_minutes", "price", "link", "tags", "ingredients"]

/-- Incoming request body for a recipe write, before the serializer validates
it.  A client may also send an owner id (`user`) or an `id`; both exist here so
that the embedding can state that they are dropped.  The nested tag/ingredient
payloads validate to their `name` strings (`TagSerializer` /
`IngredientSerializer` expose `name` with `id` read-only); an absent optional
list arrives as `[]`, matching the `validated_data.pop(..., [])` default. -/
structure RecipeBody where
  user : Option Nat
  id : Option Nat
  title : String
  time_in_minutes : Int
  price : Int
  link : String
  description : String
  tags : List String
  ingredients : List String
deriving DecidableEq

/-- Data that survives validation: exactly the writable `Meta.fields` of the
serializer (plus `description`, added by `DetailRecipeSerializer`, the class
used on every write action).  `user` is not a serializer field and `id` is
read-only, so neither is carried over from the body. -/
structure ValidatedData where
  title : String
  time_in_minutes : Int
  price : Int
  link : String
  description : String
  tags : List String
  ingredients : List String
deriving DecidableEq

/-- Validation step of the serializer: keep the writable declared fields,
drop `user` (not in `Meta.fields`) and `id` (in `read_only_fields`). -/
def to_validated_data (b : RecipeBody) : ValidatedData :=
  ⟨b.title, b.time_in_minutes, b.price, b.link, b.description, b.tags,
   b.ingredients⟩

/-- Embeds `RecipeSerializer._get_or_create_tags(tags, recipe)`. -/
def get_or_create_tags (db : DB) (auth_user : Nat) (tags : List String)
    (rid : Nat) : DB :=
  { db with tagStore := db.tagStore.get_or_create_all auth_user tags rid }

/-- Embeds `RecipeSerializer._get_or_create_ingredients(ingredients, recipe)`. -/
def get_or_create_ingredients (db : DB) (auth_user : Nat)
    (ingredients : List String) (rid : Nat) : DB :=
  { db with
    ingStore := db.ingStore.get_or_create_all auth_user ingredients rid }

/-- Embeds `RecipeSerializer.create(validated_data)` with the authenticated
user injected by `perform_create`: pop the nested lists (default `[]`), create
the recipe row, then reconcile tags and ingredients onto it. -/
def create (db : DB) (auth_user : Nat) (vd : ValidatedData) : DB × Recipe :=
  let r : Recipe :=
    { id := db.nextRecipeId, user := auth_user, title := vd.title,
      description := vd.description, time_in_minutes := vd.time_in_minutes,
      price := vd.price, link := vd.link }
  let db1 := { db with recipes := db.recipes ++ [r],
                       nextRecipeId := db.nextRecipeId + 1 }
  let db2 := get_or_create_tags db1 auth_user vd.tags r.id
  let db3 := get_or_create_ingredients db2 auth_user vd.ingredients r.id
  (db3, r)

/-- Update payload: `validated_data` of an update call.  The nested lists are
`Option`s — `validated_data.pop('tags', None)` distinguishes an absent key
(`none`) from a present, possibly empty list (`some`).  Scalar fields are
`Option`s as well: a partial update only carries the supplied ones. -/
structure UpdatePayload where
  tags : Option (List String)
  ingredients : Option (List String)
  title : Option String
  time_in_minutes : Option Int
  price : Option Int
  link : Option String
  description : Option String
deriving DecidableEq

/-- The `for attr, value in validated_data.items(): setattr(instance, ...)`
loop: overwrite exactly the supplied scalar fields. -/
def set_scalar_attrs (r : Recipe) (p : UpdatePayload) : Recipe :=
  { r with
    title := p.title.getD r.title,
    time_in_minutes := p.time_in_minutes.getD r.time_in_minutes,
    price := p.price.getD r.price,
    link := p.link.getD r.link,
    description := p.description.getD r.description }

/-- Embeds `RecipeSerializer.update(instance, validated_data)` for the recipe
with id `rid` owned by the authenticated user `u`: when the `tags` key is
present, `instance.tag.clear()` then `_get_or_create_tags`; same for
`ingredients`; finally the scalar `setattr` loop and `instance.save()`. -/
def update (db : DB) (u : Nat) (rid : Nat) (p : UpdatePayload) : DB :=
  let db1 := match p.tags with
    | none => db
    | some ts =>
        get_or_create_tags { db with tagStore := db.tagStore.m2m_clear rid }
          u ts rid
  let db2 := match p.ingredients with
    | none => db1
    | some ings =>
        get_or_create_ingredients
          { db1 with ingStore := db1.ingStore.m2m_clear rid } u ings rid
  { db2 with
    recipes := db2.recipes.map
      (fun r => if r.id == rid then set_scalar_attrs r p else r) }

end RecipeSerializer

/-- Fields of `DetailRecipeSerializer`: the base serializer's fields plus
`description`. -/
def DetailRecipeSerializer.fields : List String :=
  RecipeSerializer.fields ++ ["description"]

/-- ViewSet actions of Django REST Framework.  `patch` embeds the PATCH action
(called `partial_update` by the framework) provided by the update mixin
alongside PUT. -/
inductive ViewAction where
  | list
  | create
  | retrieve
  | update
  | patch
  | destroy
deriving DecidableEq

/-- Query parameters a list request may carry: comma-separated tag ids,
ingredient ids, and the assigned-only flag. -/
structure QueryParams where
  tags : Option (List Nat)
  ingredients : Option (List Nat)
  assigned_only : Option Nat
deriving DecidableEq

/-- Query parameters of a request that supplies none. -/
def QueryParams.empty : QueryParams := ⟨none, none, none⟩

/-- The serializer classes of `recipe/serializers.py`. -/
inductive SerializerKind where
  | recipe
  | detailRecipe
  | tag
  | ingredient
deriving DecidableEq

/-- Fields each serializer class exposes. -/
def SerializerKind.fields : SerializerKind → List String
  | .recipe => RecipeSerializer.fields
  | .detailRecipe => DetailRecipeSerializer.fields
  | .tag => ["id", "name"]
  | .ingredient => ["id", "name"]

/-- Descending order on recipe primary keys: embeds `.order_by('-id')`. -/
def recipeIdDesc (a b : Recipe) : Prop := b.id ≤ a.id

instance : DecidableRel recipeIdDesc :=
  fun a b => inferInstanceAs (Decidable (b.id ≤ a.id))

instance : IsTotal Recipe recipeIdDesc := ⟨fun a b => Nat.le_total b.id a.id⟩

instance : IsTrans Recipe recipeIdDesc :=
  ⟨fun _ _ _ hab hbc => Nat.le_trans hbc hab⟩

/-- Lexicographic comparison of character lists by code point: the order the
database applies to the `name` column. -/
def charListLe : List Char → List Char → Bool
  | [], _ => true
  | _ :: _, [] => false
  | a :: as, b :: bs =>
      if a.val.toNat < b.val.toNat then true
      else if b.val.toNat < a.val.toNat then false
      else charListLe as bs

/-- Descending order on entity names (lexicographic by code point): embeds
`.order_by('-name')`. -/
def entityNameDesc (a b : Entity) : Prop :=
  charListLe b.name.data a.name.data = true

instance : DecidableRel entityNameDesc :=
  fun a b =>
    inferInstanceAs (Decidable (charListLe b.name.data a.name.data = true))

instance : IsTotal Entity entityNameDesc := by
  constructor
  have key : ∀ x y : List Char, charListLe x y = true ∨ charListLe y x = true := by
    intro x
    induction x with
    | nil => intro y; left; rfl
    | cons a as ih =>
        intro y
        cases y with
        | nil => right; rfl
        | cons b bs =>
            by_cases h1 : a.val.toNat < b.val.toNat
            · left; simp [charListLe, h1]
            · by_cases h2 : b.val.toNat < a.val.toNat
              · right; simp [charListLe, h1, h2]
              · rcases ih bs with h | h
                · left; simp [charListLe, h1, h2, h]
                · right; simp [charListLe, h1, h2, h]
  exact fun a b => key b.name.data a.name.data

instance : IsTrans Entity entityNameDesc := by
  constructor
  have key : ∀ x y z : List Char, charListLe x y = true →
      charListLe y z = true → charListLe x z = true := by
    intro x
    induction x with
    | nil => intro y z h1 h2; rfl
    | cons a as ih =>
        intro y z hxy hyz
        cases y with
        | nil => simp [charListLe] at hxy
        | cons b bs =>
            cases z with
            | nil => simp [charListLe] at hyz
            | cons c cs =>
                simp only [charListLe] at hxy hyz ⊢
                by_cases hab : a.val.toNat < b.val.toNat <;>
                  by_cases hba : b.val.toNat < a.val.toNat <;>
                    by_cases hbc : b.val.toNat < c.val.toNat <;>
                      by_cases hcb : c.val.toNat < b.val.toNat <;>
                        simp [hab, hba, hbc, hcb] at hxy hyz ⊢ <;>
                          first
                            | omega
                            | (have hac : a.val.toNat < c.val.toNat := by omega
                               simp [hac])
                            | (have hac : ¬ a.val.toNat < c.val.toNat := by omega
                               have hca : ¬ c.val.toNat < a.val.toNat := by omega
                               simp [hac, hca]
                               first
                                 | exact ih bs cs hxy hyz
                                 | exact ⟨by omega, ih bs cs hxy hyz⟩)
  exact fun a b c h1 h2 => key c.name.data b.name.data a.name.data h2 h1

/-- Error response relevant to the claims: HTTP 404. -/
inductive HttpError where
  | notFound
deriving DecidableEq

namespace RecipeViewSet

/-- The `serializer_class` attribute of `RecipeViewSet`. -/
def serializer_class : SerializerKind := SerializerKind.detailRecipe

/-- Embeds `RecipeViewSet.get_serializer_class`: the plain `RecipeSerializer`
for the list action, `serializer_class` (= `DetailRecipeSerializer`)
otherwise. -/
def get_serializer_class (action : ViewAction) : SerializerKind :=
  if action = ViewAction.list then SerializerKind.recipe else serializer_class

/-- Embeds `RecipeViewSet.get_queryset`:
`self.queryset.filter(user=self.request.user).order_by('-id')`.  The request's
query parameters are passed in as `query_params`; the body of the Python
method never reads them. -/
def get_queryset (db : DB) (request_user : Nat) (query_params : QueryParams) :
    List Recipe :=
  List.insertionSort recipeIdDesc
    (db.recipes.filter (fun r => r.user == request_user))

/-- DRF's `get_object` for a detail route: look the pk up inside
`get_queryset()`; `get_object_or_404` turns a miss into HTTP 404. -/
def get_object (db : DB) (request_user pk : Nat) : Option Recipe :=
  (get_queryset db request_user QueryParams.empty).find? (fun r => r.id == pk)

/-- Detail GET on a recipe id. -/
def retrieve (db : DB) (request_user pk : Nat) : Except HttpError Recipe :=
  match get_object db request_user pk with
  | some r => Except.ok r
  | none => Except.error HttpError.notFound

/-- DELETE on a recipe id: `get_object` then `instance.delete()`; the
relational cascade also removes the recipe's through rows. -/
def destroy (db : DB) (request_user pk : Nat) :
    Except HttpError Unit × DB :=
  match get_object db request_user pk with
  | some r =>
      (Except.ok (),
        { db with
          recipes := db.recipes.filter (fun x => x.id != r.id),
          tagStore := db.tagStore.m2m_clear r.id,
          ingStore := db.ingStore.m2m_clear r.id })
  | none => (Except.error HttpError.notFound, db)

/-- Embeds `RecipeViewSet.perform_create`:
`serializer.save(user=self.request.user)` — the serializer is run on the
validated body and the owner is the authenticated requester. -/
def perform_create (db : DB) (request_user : Nat)
    (b : RecipeSerializer.RecipeBody) : DB × Recipe :=
  RecipeSerializer.create db request_user (RecipeSerializer.to_validated_data b)

end RecipeViewSet

namespace TagViewSet

/-- Embeds `TagViewSet.get_queryset`:
`self.queryset.filter(user=self.request.user).order_by('-name')`.  The
request's query parameters (in particular `assigned_only`) are passed in; the
Python body never reads them. -/
def get_queryset (db : DB) (request_user : Nat) (query_params : QueryParams) :
    List Entity :=
  List.insertionSort entityNameDesc
    (db.tagStore.rows.filter (fun t => t.user == request_user))

end TagViewSet

namespace IngredientViewSet

/-- Embeds `IngredientViewSet.get_queryset`:
`self.queryset.filter(user=self.request.user).order_by('-name')`; the query
parameters are likewise never read. -/
def get_queryset (db : DB) (request_user : Nat) (query_params : QueryParams) :
    List Entity :=
  List.insertionSort entityNameDesc
    (db.ingStore.rows.filter (fun t => t.user == request_user))

end IngredientViewSet

/-- Actions provided by each DRF mixin (`rest_framework.mixins`), and the
action sets of the three viewsets in `recipe/views.py` as determined by their
base classes.  `GenericViewSet` itself contributes no action. -/
def ListModelMixin.actions : List ViewAction := [ViewAction.list]

/-- Action provided by `mixins.CreateModelMixin`. -/
def CreateModelMixin.actions : List ViewAction := [ViewAction.create]

/-- Action provided by `mixins.RetrieveModelMixin`. -/
def RetrieveModelMixin.actions : List ViewAction := [ViewAction.retrieve]

/-- Actions provided by `mixins.UpdateModelMixin` (PUT and PATCH). -/
def UpdateModelMixin.actions : List ViewAction := [ViewAction.update, ViewAction.patch]

/-- Action provided by `mixins.DestroyModelMixin`. -/
def DestroyModelMixin.actions : List ViewAction := [ViewAction.destroy]

/-- `viewsets.ModelViewSet` combines all five mixins. -/
def ModelViewSet.actions : List ViewAction :=
  CreateModelMixin.actions ++ RetrieveModelMixin.actions ++
    UpdateModelMixin.actions ++ DestroyModelMixin.actions ++
    ListModelMixin.actions

/-- `RecipeViewSet(viewsets.ModelViewSet)`. -/
def RecipeViewSet.actions : List ViewAction := ModelViewSet.actions

/-- `TagViewSet(mixins.ListModelMixin, mixins.UpdateModelMixin,
mixins.DestroyModelMixin, viewsets.GenericViewSet)`. -/
def TagViewSet.actions : List ViewAction :=
  ListModelMixin.actions ++ UpdateModelMixin.actions ++
    DestroyModelMixin.actions

/-- `IngredientViewSet(mixins.ListModelMixin, viewsets.GenericViewSet)`. -/
def IngredientViewSet.actions : List ViewAction := ListModelMixin.actions

/-- Row of the user table: the fields touched by `UserManager.create_user`.
`password` stands for the stored hash produced by `set_password`. -/
structure UserRow where
  id : Nat
  email : String
  password : String
deriving DecidableEq

/-- The exception kinds relevant to claim C8: Python's builtin `ValueError`
(what `create_user` raises) and the framework's `ValidationError`. -/
inductive DjangoError where
  | valueError (msg : String)
  | validationError (msg : String)
deriving DecidableEq

/-- Whether an error is a `ValidationError`. -/
def DjangoError.isValidationError : DjangoError → Bool
  | .validationError _ => true
  | _ => false

/-- Embeds `BaseUserManager.normalize_email`: strip, split at the last `@`,
lower-case the domain part; an email with no `@` is returned unchanged. -/
def normalize_email (email : String) : String :=
  let s := email.trim
  let parts := s.splitOn "@"
  if parts.length ≤ 1 then email
  else
    String.intercalate "@" parts.dropLast ++ "@" ++ (parts.getLastD "").toLower

namespace UserManager

/-- Embeds `UserManager.create_user` (`core/models.py`): an empty email raises
`ValueError('User must provide email')` before anything is written; otherwise
the user row is stored with the normalized email.  The identity store (row
list and id counter) is returned alongside the outcome so that non-mutation is
expressible. -/
def create_user (users : List UserRow) (next_id : Nat)
    (email password : String) :
    Except DjangoError UserRow × List UserRow × Nat :=
  if email = "" then
    (Except.error (DjangoError.valueError "User must provide email"),
     users, next_id)
  else
    let u : UserRow := ⟨next_id, normalize_email email, password⟩
    (Except.ok u, users ++ [u], next_id + 1)

end UserManager

/-- Concrete database in which owner `0` already has the tag "Jollof"
(mirrors the spec's reconciliation example). -/
def jollofDb : DB := ⟨⟨[⟨1, 0, "Jollof"⟩], 2, []⟩, ⟨[], 1, []⟩, [], 1⟩

/-- Concrete database with one recipe of owner `0` that has one tag and one
ingredient attached (fixture for the update claims). -/
def lunchDb : DB :=
  ⟨⟨[⟨1, 0, "Breakfast"⟩], 2, [(1, 1)]⟩,
   ⟨[⟨1, 0, "Salt"⟩], 2, [(1, 1)]⟩,
   [⟨1, 0, "Sample recipe", "", 10, 500, ""⟩], 2⟩

/-- Concrete database with rows of two users (fixture for the listing
claims): recipes 1 and 3 belong to user `0`, recipe 2 to user `1`. -/
def listDb : DB :=
  ⟨⟨[⟨1, 0, "Vegan"⟩, ⟨2, 0, "Dessert"⟩, ⟨3, 1, "Fruity"⟩], 4, []⟩,
   ⟨[⟨1, 0, "Salt"⟩, ⟨2, 0, "Pepper"⟩], 3, []⟩,
   [⟨1, 0, "Sample A", "", 5, 100, ""⟩, ⟨2, 1, "Sample B", "", 5, 100, ""⟩,
    ⟨3, 0, "Sample C", "", 5, 100, ""⟩], 4⟩

/-- Concrete database mirroring the fixture of
`test_filtering_recipe_with_tags`: user `0` owns recipe 1 tagged `Vegan` (id
1), recipe 2 tagged `Vegetarian` (id 2), and recipe 3 with no tags. -/
def filterDb : DB :=
  ⟨⟨[⟨1, 0, "Vegan"⟩, ⟨2, 0, "Vegetarian"⟩], 3, [(1, 1), (2, 2)]⟩,
   ⟨[], 1, []⟩,
   [⟨1, 0, "Thai Vegetable Curry", "", 30, 250, ""⟩,
    ⟨2, 0, "Aubergine with Tahini", "", 25, 300, ""⟩,
    ⟨3, 0, "Fish and chips", "", 10, 500, ""⟩], 4⟩

/-- Concrete database mirroring the fixtures of
`test_filtering_tags_assigned_to_recipes` and
`test_filtering_ingredients_assigned_to_recipes`: tag 1 (`Breakfast`) and
ingredient 1 (`Apples`) are attached to recipe 1; tag 2 (`Lunch`) and
ingredient 2 (`Turkey`) are attached to nothing. -/
def assignedDb : DB :=
  ⟨⟨[⟨1, 0, "Breakfast"⟩, ⟨2, 0, "Lunch"⟩], 3, [(1, 1)]⟩,
   ⟨[⟨1, 0, "Apples"⟩, ⟨2, 0, "Turkey"⟩], 3, [(1, 1)]⟩,
   [⟨1, 0, "Green eggs on toast", "", 10, 250, ""⟩], 2⟩

/-- Concrete database whose only recipe belongs to user `1` (fixture for the
cross-user access claim, requester is user `0`). -/
def crossDb : DB :=
  ⟨⟨[], 1, []⟩, ⟨[], 1, []⟩, [⟨1, 1, "Other user recipe", "", 10, 250, ""⟩], 2⟩

namespace EStore

theorem wf_unique {s : EStore} (hs : s.Wf) {t t2 : Entity}
    (ht : t ∈ s.rows) (ht2 : t2 ∈ s.rows)
    (hu : t.user = t2.user) (hn : t.name = t2.name) : t = t2 := by
  rcases hs with ⟨-, -, hpair⟩
  by_contra hne
  have hsym : Symmetric (fun a b : Entity => ¬(a.user = b.user ∧ a.name = b.name)) := by
    intro a b h hc
    exact h ⟨hc.1.symm, hc.2.symm⟩
  exact hpair.forall hsym ht ht2 hne ⟨hu, hn⟩

theorem get_or_create_found {s : EStore} {u : Nat} {n : String} {t : Entity}
    (h : s.rows.find? (fun t => t.user == u && t.name == n) = some t) :
    s.get_or_create u n = (s, t.id) := by
  unfold get_or_create
  rw [h]

theorem get_or_create_mems (s : EStore) (u : Nat) (n : String) :
    (s.get_or_create u n).1.mems = s.mems := by
  unfold get_or_create
  cases s.rows.find? (fun t => t.user == u && t.name == n) <;> rfl

theorem get_or_create_rows_sub (s : EStore) (u : Nat) (n : String) {t : Entity}
    (h : t ∈ s.rows) : t ∈ (s.get_or_create u n).1.rows := by
  unfold get_or_create
  cases s.rows.find? (fun t => t.user == u && t.name == n) with
  | none => exact List.mem_append_left _ h
  | some t0 => exact h

theorem get_or_create_returns (s : EStore) (u : Nat) (n : String) :
    ∃ t ∈ (s.get_or_create u n).1.rows,
      t.id = (s.get_or_create u n).2 ∧ t.user = u ∧ t.name = n := by
  unfold get_or_create
  cases hf : s.rows.find? (fun t => t.user == u && t.name == n) with
  | none =>
      refine ⟨⟨s.nextId, u, n⟩, List.mem_append_right _ (List.mem_singleton.2 rfl),
        rfl, rfl, rfl⟩
  | some t0 =>
      have hmem := List.mem_of_find?_eq_some hf
      have hp := List.find?_some hf
      simp only [Bool.and_eq_true, beq_iff_eq] at hp
      exact ⟨t0, hmem, rfl, hp.1, hp.2⟩

theorem get_or_create_wf {s : EStore} (hs : s.Wf) (u : Nat) (n : String) :
    (s.get_or_create u n).1.Wf := by
  unfold get_or_create
  cases hf : s.rows.find? (fun t => t.user == u && t.name == n) with
  | some t0 => exact hs
  | none =>
    obtain ⟨h1, h2, h3⟩ := hs
    have hnone := List.find?_eq_none.1 hf
    refine ⟨?_, ?_, ?_⟩
    · intro t ht
      rcases List.mem_append.1 ht with h | h
      · exact Nat.lt_succ_of_lt (h1 t h)
      · rw [List.mem_singleton.1 h]; exact Nat.lt_succ_self _
    · rw [List.pairwise_append]
      refine ⟨h2, List.pairwise_singleton _ _, ?_⟩
      intro a ha b hb
      rw [List.mem_singleton.1 hb]
      exact Nat.ne_of_lt (h1 a ha)
    · rw [List.pairwise_append]
      refine ⟨h3, List.pairwise_singleton _ _, ?_⟩
      intro a ha b hb hc
      rw [List.mem_singleton.1 hb] at hc
      have := hnone a ha
      simp only [Bool.and_eq_true, beq_iff_eq] at this
      exact this ⟨hc.1, hc.2⟩

theorem get_or_create_unique {s : EStore} (hs : s.Wf) {u : Nat} {n : String}
    {t : Entity} (ht : t ∈ (s.get_or_create u n).1.rows)
    (hu : t.user = u) (hn : t.name = n) : t.id = (s.get_or_create u n).2 := by
  obtain ⟨t0, ht0, hid, hu0, hn0⟩ := get_or_create_returns s u n
  have hwf := get_or_create_wf hs u n
  have heq := wf_unique hwf ht ht0 (by rw [hu, hu0]) (by rw [hn, hn0])
  rw [heq, hid]

theorem m2m_add_rows (s : EStore) (rid tid : Nat) :
    (s.m2m_add rid tid).rows = s.rows := by
  unfold m2m_add; split <;> rfl

theorem m2m_add_nextId (s : EStore) (rid tid : Nat) :
    (s.m2m_add rid tid).nextId = s.nextId := by
  unfold m2m_add; split <;> rfl

theorem m2m_add_mem (s : EStore) (rid tid : Nat) (p : Nat × Nat) :
    p ∈ (s.m2m_add rid tid).mems ↔ p ∈ s.mems ∨ p = (rid, tid) := by
  unfold m2m_add
  split
  · constructor
    · exact fun h => Or.inl h
    · rintro (h | rfl)
      · exact h
      · assumption
  · simp [List.mem_append]

theorem m2m_add_wf {s : EStore} (hs : s.Wf) (rid tid : Nat) :
    (s.m2m_add rid tid).Wf := by
  unfold Wf at hs ⊢
  rw [m2m_add_rows, m2m_add_nextId]
  exact hs

theorem attach_one_def (s : EStore) (u : Nat) (n : String) (rid : Nat) :
    s.attach_one u n rid =
      (s.get_or_create u n).1.m2m_add rid (s.get_or_create u n).2 := rfl

theorem attach_one_rows_sub (s : EStore) (u : Nat) (n : String) (rid : Nat)
    {t : Entity} (h : t ∈ s.rows) : t ∈ (s.attach_one u n rid).rows := by
  rw [attach_one_def, m2m_add_rows]
  exact get_or_create_rows_sub s u n h

theorem attach_one_wf {s : EStore} (hs : s.Wf) (u : Nat) (n : String)
    (rid : Nat) : (s.attach_one u n rid).Wf := by
  rw [attach_one_def]
  exact m2m_add_wf (get_or_create_wf hs u n) _ _

theorem attach_one_mems (s : EStore) (u : Nat) (n : String) (rid : Nat)
    (p : Nat × Nat) :
    p ∈ (s.attach_one u n rid).mems ↔
      p ∈ s.mems ∨ p = (rid, (s.get_or_create u n).2) := by
  rw [attach_one_def, m2m_add_mem, get_or_create_mems]

theorem attach_one_returns (s : EStore) (u : Nat) (n : String) (rid : Nat) :
    ∃ t ∈ (s.attach_one u n rid).rows,
      t.id = (s.get_or_create u n).2 ∧ t.user = u ∧ t.name = n := by
  rw [attach_one_def, m2m_add_rows]
  exact get_or_create_returns s u n

theorem get_or_create_all_nil (s : EStore) (u rid : Nat) :
    s.get_or_create_all u [] rid = s := rfl

theorem get_or_create_all_cons (s : EStore) (u : Nat) (n : String)
    (rest : List String) (rid : Nat) :
    s.get_or_create_all u (n :: rest) rid =
      (s.attach_one u n rid).get_or_create_all u rest rid := rfl

theorem get_or_create_all_wf {s : EStore} (hs : s.Wf) (u : Nat)
    (names : List String) (rid : Nat) :
    (s.get_or_create_all u names rid).Wf := by
  induction names generalizing s with
  | nil => exact hs
  | cons n rest ih =>
      rw [get_or_create_all_cons]
      exact ih (attach_one_wf hs u n rid)

theorem get_or_create_all_rows_sub (s : EStore) (u : Nat)
    (names : List String) (rid : Nat) {t : Entity} (h : t ∈ s.rows) :
    t ∈ (s.get_or_create_all u names rid).rows := by
  induction names generalizing s with
  | nil => exact h
  | cons n rest ih =>
      rw [get_or_create_all_cons]
      exact ih _ (attach_one_rows_sub s u n rid h)

theorem get_or_create_all_mems_mono (s : EStore) (u : Nat)
    (names : List String) (rid : Nat) {p : Nat × Nat} (h : p ∈ s.mems) :
    p ∈ (s.get_or_create_all u names rid).mems := by
  induction names generalizing s with
  | nil => exact h
  | cons n rest ih =>
      rw [get_or_create_all_cons]
      exact ih _ ((attach_one_mems s u n rid p).2 (Or.inl h))

theorem get_or_create_all_exists (s : EStore) (u : Nat) (names : List String)
    (rid : Nat) {n : String} (hn : n ∈ names) :
    ∃ t ∈ (s.get_or_create_all u names rid).rows, t.user = u ∧ t.name = n := by
  induction names generalizing s with
  | nil => cases hn
  | cons m rest ih =>
      rw [get_or_create_all_cons]
      rcases List.mem_cons.1 hn with rfl | hmem
      · obtain ⟨t, ht, -, hu, hname⟩ := attach_one_returns s u n rid
        exact ⟨t, get_or_create_all_rows_sub _ u rest rid ht, hu, hname⟩
      · exact ih _ hmem

theorem get_or_create_all_mems_char {s : EStore} (hs : s.Wf) (u : Nat)
    (names : List String) (rid : Nat) (p : Nat × Nat) :
    p ∈ (s.get_or_create_all u names rid).mems ↔
      p ∈ s.mems ∨
        (p.1 = rid ∧ ∃ t ∈ (s.get_or_create_all u names rid).rows,
          t.id = p.2 ∧ t.user = u ∧ t.name ∈ names) := by
  induction names generalizing s with
  | nil =>
      simp [get_or_create_all_nil]
  | cons n rest ih =>
      rw [get_or_create_all_cons]
      have hs1 := attach_one_wf hs u n rid
      obtain ⟨t1, ht1, ht1id, ht1u, ht1n⟩ := attach_one_returns s u n rid
      have ht1out := get_or_create_all_rows_sub _ u rest rid ht1
      constructor
      · intro hp
        rcases (ih hs1).1 hp with hp1 | ⟨hprid, t, ht, htid, htu, htn⟩
        · rcases (attach_one_mems s u n rid p).1 hp1 with hp0 | rfl
          · exact Or.inl hp0
          · exact Or.inr ⟨rfl, t1, ht1out, ht1id, ht1u, by rw [ht1n]; exact List.mem_cons_self _ _⟩
        · exact Or.inr ⟨hprid, t, ht, htid, htu, List.mem_cons_of_mem _ htn⟩
      · rintro (hp | ⟨hprid, t, ht, htid, htu, htn⟩)
        · exact (ih hs1).2 (Or.inl ((attach_one_mems s u n rid p).2 (Or.inl hp)))
        · rcases List.mem_cons.1 htn with hnn | hrest
          · have hwfout := get_or_create_all_wf hs1 u rest rid
            have heq : t = t1 :=
              wf_unique hwfout ht ht1out (by rw [htu, ht1u]) (by rw [hnn, ht1n])
            have hpeq : p = (rid, (s.get_or_create u n).2) := by
              have : p.2 = (s.get_or_create u n).2 := by
                rw [← htid, heq, ht1id]
              calc p = (p.1, p.2) := rfl
                _ = (rid, (s.get_or_create u n).2) := by rw [hprid, this]
            exact (ih hs1).2
              (Or.inl ((attach_one_mems s u n rid p).2 (Or.inr hpeq)))
          · exact (ih hs1).2 (Or.inr ⟨hprid, t, ht, htid, htu, hrest⟩)

theorem m2m_clear_rows (s : EStore) (rid : Nat) :
    (s.m2m_clear rid).rows = s.rows := rfl

theorem m2m_clear_wf {s : EStore} (hs : s.Wf) (rid : Nat) :
    (s.m2m_clear rid).Wf := hs

theorem m2m_clear_mem (s : EStore) (rid : Nat) (p : Nat × Nat) :
    p ∈ (s.m2m_clear rid).mems ↔ p ∈ s.mems ∧ p.1 ≠ rid := by
  unfold m2m_clear
  simp [List.mem_filter]

theorem get_or_create_all_outcome {s : EStore} (hs : s.Wf) (u : Nat)
    (names : List String) (rid : Nat)
    (hfresh : ∀ p ∈ s.mems, p.1 ≠ rid) :
    ReconcileOutcome s (s.get_or_create_all u names rid) u names rid := by
  have hwfout := get_or_create_all_wf hs u names rid
  have hchar := get_or_create_all_mems_char hs u names rid
  refine ⟨?_, ?_, ?_⟩
  · intro t ht htu htn
    have htout : t ∈ (s.get_or_create_all u names rid).rows :=
      get_or_create_all_rows_sub s u names rid ht
    refine ⟨?_, htout, ?_⟩
    · exact (hchar (rid, t.id)).2 (Or.inr ⟨rfl, t, htout, rfl, htu, htn⟩)
    · intro t2 ht2 ht2u ht2n
      exact wf_unique hwfout ht2 htout (by rw [ht2u, htu]) ht2n
  · intro n hn
    obtain ⟨t, htout, htu, htn⟩ := get_or_create_all_exists s u names rid hn
    refine ⟨t.id, ⟨?_, t, htout, rfl, htu, htn⟩, ?_⟩
    · exact (hchar (rid, t.id)).2
        (Or.inr ⟨rfl, t, htout, rfl, htu, by rw [htn]; exact hn⟩)
    · rintro tid ⟨-, t2, ht2, ht2id, ht2u, ht2n⟩
      have heq := wf_unique hwfout ht2 htout (by rw [ht2u, htu])
        (by rw [ht2n, htn])
      rw [← ht2id, heq]
  · intro tid hmem
    rcases (hchar (rid, tid)).1 hmem with hold | ⟨-, t, htout, htid, htu, htn⟩
    · exact absurd rfl (hfresh _ hold)
    · exact ⟨t, htout, htid, htu, htn⟩

end EStore

/-- C9: the tag endpoint exposes exactly the list, update (PUT and PATCH) and
destroy operations — no create and no single-item retrieve — while the
ingredient endpoint exposes only the list operation; every other action is
absent from the action set the mixin bases install, hence rejected at the
interface. -/
theorem c9_exposed_actions :
    TagViewSet.actions =
      [ViewAction.list, ViewAction.update, ViewAction.patch,
       ViewAction.destroy] ∧
    ViewAction.create ∉ TagViewSet.actions ∧
    ViewAction.retrieve ∉ TagViewSet.actions ∧
    IngredientViewSet.actions = [ViewAction.list] ∧
    ViewAction.create ∉ IngredientViewSet.actions ∧
    ViewAction.update ∉ IngredientViewSet.actions ∧
    ViewAction.patch ∉ IngredientViewSet.actions ∧
    ViewAction.destroy ∉ IngredientViewSet.actions ∧
    ViewAction.retrieve ∉ IngredientViewSet.actions := by
  decide

/-- C10: the recipe list action serializes without the `description` field;
retrieve, create, update, PATCH and destroy all use the detail serializer,
whose field set includes `description` and otherwise equals the list
serializer's field set. -/
theorem c10_list_serializer_excludes_description :
    RecipeViewSet.get_serializer_class ViewAction.list = SerializerKind.recipe ∧
    "description" ∉ (RecipeViewSet.get_serializer_class ViewAction.list).fields ∧
    RecipeViewSet.get_serializer_class ViewAction.retrieve =
      SerializerKind.detailRecipe ∧
    RecipeViewSet.get_serializer_class ViewAction.create =
      SerializerKind.detailRecipe ∧
    RecipeViewSet.get_serializer_class ViewAction.update =
      SerializerKind.detailRecipe ∧
    RecipeViewSet.get_serializer_class ViewAction.patch =
      SerializerKind.detailRecipe ∧
    RecipeViewSet.get_serializer_class ViewAction.destroy =
      SerializerKind.detailRecipe ∧
    "description" ∈ SerializerKind.detailRecipe.fields ∧
    SerializerKind.detailRecipe.fields =
      SerializerKind.recipe.fields ++ ["description"] := by
  decide

/-- C8 counterexample: creating a user with an empty email raises Python's
`ValueError`, not a `ValidationError`, so the claim's stated error kind is
wrong at this concrete input (empty store, email `""`). -/
theorem c8_empty_email_counterexample :
    UserManager.create_user [] 0 "" "test1234" =
      (Except.error (DjangoError.valueError "User must provide email"),
       [], 0) ∧
    (DjangoError.valueError "User must provide email").isValidationError
      = false := by
  exact ⟨rfl, rfl⟩

/-- C8 amended: creating a user with an empty email always fails by raising
`ValueError` (message `User must provide email`), before any mutation — the
identity store and its id counter are returned unchanged, so no user record is
created. -/
theorem c8_empty_email_value_error (users : List UserRow) (next_id : Nat)
    (password : String) :
    UserManager.create_user users next_id "" password =
      (Except.error (DjangoError.valueError "User must provide email"),
       users, next_id) := rfl

/-- C4: the recipe persisted by a create request carries the authenticated
requester as owner and is stored; replacing the owner id supplied in the
request body changes nothing, because the serializer never reads it
(`user` is not among `Meta.fields`). -/
theorem c4_owner_from_authentication (db : DB) (request_user : Nat)
    (b : RecipeSerializer.RecipeBody) (v : Option Nat) :
    (RecipeViewSet.perform_create db request_user b).2.user = request_user ∧
    (RecipeViewSet.perform_create db request_user b).2 ∈
      (RecipeViewSet.perform_create db request_user b).1.recipes ∧
    RecipeViewSet.perform_create db request_user { b with user := v } =
      RecipeViewSet.perform_create db request_user b := by
  refine ⟨rfl, ?_, rfl⟩
  show (RecipeViewSet.perform_create db request_user b).2 ∈
    db.recipes ++ [(RecipeViewSet.perform_create db request_user b).2]
  exact List.mem_append_right _ (List.mem_singleton.2 rfl)

/-- C1: reconciling a list of candidate names for an owner onto a recipe with
no prior associations (the create path) resolves each name through
get-or-create — an entity the owner already has under a requested name is
reattached and stays the unique row for its `(owner, name)` key, every
requested name ends up with exactly one attached entity id, and nothing else
is attached; duplicate names in the input therefore collapse to a single
membership.  Both for tags and for ingredients. -/
theorem c1_tag_ingredient_reconciliation (db : DB) (u : Nat)
    (names : List String) (rid : Nat)
    (hwt : db.tagStore.Wf) (hwi : db.ingStore.Wf)
    (hft : ∀ p ∈ db.tagStore.mems, p.1 ≠ rid)
    (hfi : ∀ p ∈ db.ingStore.mems, p.1 ≠ rid) :
    EStore.ReconcileOutcome db.tagStore
      (RecipeSerializer.get_or_create_tags db u names rid).tagStore
      u names rid ∧
    EStore.ReconcileOutcome db.ingStore
      (RecipeSerializer.get_or_create_ingredients db u names rid).ingStore
      u names rid :=
  ⟨EStore.get_or_create_all_outcome hwt u names rid hft,
   EStore.get_or_create_all_outcome hwi u names rid hfi⟩

/-- Witness for C1: owner `0` already has tag `Jollof` (store `jollofDb`);
reconciling `["Jollof", "Lunch"]` onto recipe `7` satisfies the hypotheses and
yields the reconcile outcome. -/
theorem c1_tag_ingredient_reconciliation_witness :
    jollofDb.tagStore.Wf ∧ jollofDb.ingStore.Wf ∧
    (∀ p ∈ jollofDb.tagStore.mems, p.1 ≠ 7) ∧
    (∀ p ∈ jollofDb.ingStore.mems, p.1 ≠ 7) ∧
    (EStore.ReconcileOutcome jollofDb.tagStore
      (RecipeSerializer.get_or_create_tags jollofDb 0 ["Jollof", "Lunch"]
        7).tagStore 0 ["Jollof", "Lunch"] 7 ∧
     EStore.ReconcileOutcome jollofDb.ingStore
      (RecipeSerializer.get_or_create_ingredients jollofDb 0
        ["Jollof", "Lunch"] 7).ingStore 0 ["Jollof", "Lunch"] 7) :=
  ⟨by decide, by decide, by decide, by decide,
   c1_tag_ingredient_reconciliation jollofDb 0 ["Jollof", "Lunch"] 7
     (by decide) (by decide) (by decide) (by decide)⟩

theorem update_tagStore (db : DB) (u rid : Nat)
    (p : RecipeSerializer.UpdatePayload) :
    (RecipeSerializer.update db u rid p).tagStore =
      match p.tags with
      | none => db.tagStore
      | some ts => (db.tagStore.m2m_clear rid).get_or_create_all u ts rid := by
  unfold RecipeSerializer.update
  cases p.tags <;> cases p.ingredients <;> rfl

theorem update_ingStore (db : DB) (u rid : Nat)
    (p : RecipeSerializer.UpdatePayload) :
    (RecipeSerializer.update db u rid p).ingStore =
      match p.ingredients with
      | none => db.ingStore
      | some ings =>
          (db.ingStore.m2m_clear rid).get_or_create_all u ings rid := by
  unfold RecipeSerializer.update
  cases p.tags <;> cases p.ingredients <;> rfl

theorem cleared_then_reconciled {s : EStore} (hs : s.Wf) (u : Nat)
    (ns : List String) (rid : Nat) :
    (∀ tid, ((rid, tid) ∈ ((s.m2m_clear rid).get_or_create_all u ns rid).mems ↔
      ∃ t ∈ ((s.m2m_clear rid).get_or_create_all u ns rid).rows,
        t.id = tid ∧ t.user = u ∧ t.name ∈ ns)) ∧
    (∀ rid2 tid, rid2 ≠ rid →
      ((rid2, tid) ∈ ((s.m2m_clear rid).get_or_create_all u ns rid).mems ↔
        (rid2, tid) ∈ s.mems)) := by
  have hwfc : (s.m2m_clear rid).Wf := EStore.m2m_clear_wf hs rid
  constructor
  · intro tid
    have hchar := EStore.get_or_create_all_mems_char hwfc u ns rid (rid, tid)
    rw [hchar, EStore.m2m_clear_mem]
    constructor
    · rintro (⟨-, hne⟩ | ⟨-, h⟩)
      · exact absurd rfl hne
      · exact h
    · exact fun h => Or.inr ⟨rfl, h⟩
  · intro rid2 tid hne
    have hchar := EStore.get_or_create_all_mems_char hwfc u ns rid (rid2, tid)
    rw [hchar, EStore.m2m_clear_mem]
    constructor
    · rintro (⟨h, -⟩ | ⟨h, -⟩)
      · exact h
      · exact absurd h hne
    · exact fun h => Or.inl ⟨h, hne⟩

/-- C2: on update, a present `tags` (resp. `ingredients`) key — even an empty
list — fully replaces the recipe's association set: afterwards the recipe is
associated exactly with the owner's entities bearing the requested names (so
`some []` clears everything), and other recipes' associations are untouched;
an absent key leaves the association table exactly unchanged. -/
theorem c2_update_replaces_associations (db : DB) (u rid : Nat)
    (p : RecipeSerializer.UpdatePayload)
    (hwt : db.tagStore.Wf) (hwi : db.ingStore.Wf) :
    (p.tags = none →
      (RecipeSerializer.update db u rid p).tagStore.mems =
        db.tagStore.mems) ∧
    (∀ ts, p.tags = some ts →
      (∀ tid,
        ((rid, tid) ∈ (RecipeSerializer.update db u rid p).tagStore.mems ↔
          ∃ t ∈ (RecipeSerializer.update db u rid p).tagStore.rows,
            t.id = tid ∧ t.user = u ∧ t.name ∈ ts)) ∧
      (∀ rid2 tid, rid2 ≠ rid →
        ((rid2, tid) ∈ (RecipeSerializer.update db u rid p).tagStore.mems ↔
          (rid2, tid) ∈ db.tagStore.mems))) ∧
    (p.ingredients = none →
      (RecipeSerializer.update db u rid p).ingStore.mems =
        db.ingStore.mems) ∧
    (∀ ings, p.ingredients = some ings →
      (∀ tid,
        ((rid, tid) ∈ (RecipeSerializer.update db u rid p).ingStore.mems ↔
          ∃ t ∈ (RecipeSerializer.update db u rid p).ingStore.rows,
            t.id = tid ∧ t.user = u ∧ t.name ∈ ings)) ∧
      (∀ rid2 tid, rid2 ≠ rid →
        ((rid2, tid) ∈ (RecipeSerializer.update db u rid p).ingStore.mems ↔
          (rid2, tid) ∈ db.ingStore.mems))) := by
  refine ⟨?_, ?_, ?_, ?_⟩
  · intro h
    rw [update_tagStore, h]
  · intro ts h
    rw [update_tagStore, h]
    exact cleared_then_reconciled hwt u ts rid
  · intro h
    rw [update_ingStore, h]
  · intro ings h
    rw [update_ingStore, h]
    exact cleared_then_reconciled hwi u ings rid

/-- Witness for C2: on `lunchDb` (recipe 1 has tag 1 and ingredient 1
attached), an update whose payload carries `tags = some ["Lunch"]` and omits
`ingredients` satisfies the hypotheses and yields the replacement/frame
conclusions. -/
theorem c2_update_replaces_associations_witness :
    lunchDb.tagStore.Wf ∧ lunchDb.ingStore.Wf ∧
    ((RecipeSerializer.UpdatePayload.mk (some ["Lunch"]) none none none none
        none none).tags = none →
      (RecipeSerializer.update lunchDb 0 1
        (RecipeSerializer.UpdatePayload.mk (some ["Lunch"]) none none none
          none none none)).tagStore.mems = lunchDb.tagStore.mems) ∧
    (∀ ts, (RecipeSerializer.UpdatePayload.mk (some ["Lunch"]) none none none
        none none none).tags = some ts →
      (∀ tid,
        ((1, tid) ∈ (RecipeSerializer.update lunchDb 0 1
            (RecipeSerializer.UpdatePayload.mk (some ["Lunch"]) none none
              none none none none)).tagStore.mems ↔
          ∃ t ∈ (RecipeSerializer.update lunchDb 0 1
              (RecipeSerializer.UpdatePayload.mk (some ["Lunch"]) none none
                none none none none)).tagStore.rows,
            t.id = tid ∧ t.user = 0 ∧ t.name ∈ ts)) ∧
      (∀ rid2 tid, rid2 ≠ 1 →
        ((rid2, tid) ∈ (RecipeSerializer.update lunchDb 0 1
            (RecipeSerializer.UpdatePayload.mk (some ["Lunch"]) none none
              none none none none)).tagStore.mems ↔
          (rid2, tid) ∈ lunchDb.tagStore.mems))) := by
  refine ⟨by decide, by decide, ?_, ?_⟩
  · exact (c2_update_replaces_associations lunchDb 0 1
      (RecipeSerializer.UpdatePayload.mk (some ["Lunch"]) none none none none
        none none) (by decide) (by decide)).1
  · exact (c2_update_replaces_associations lunchDb 0 1
      (RecipeSerializer.UpdatePayload.mk (some ["Lunch"]) none none none none
        none none) (by decide) (by decide)).2.1

theorem orderedInsert_of_forall_not {α : Type} (r : α → α → Prop)
    [DecidableRel r] (a : α) (l : List α) (h : ∀ b ∈ l, ¬ r a b) :
    List.orderedInsert r a l = l ++ [a] := by
  induction l with
  | nil => rfl
  | cons b bs ih =>
      rw [List.orderedInsert, if_neg (h b (List.mem_cons_self b bs))]
      rw [ih (fun c hc => h c (List.mem_cons_of_mem b hc))]
      rfl

theorem insertionSort_desc_eq_reverse (l : List Recipe)
    (hl : l.Pairwise (fun a b => a.id < b.id)) :
    List.insertionSort recipeIdDesc l = l.reverse := by
  induction l with
  | nil => rfl
  | cons x xs ih =>
      obtain ⟨hx, hxs⟩ := List.pairwise_cons.1 hl
      rw [List.insertionSort, ih hxs, List.reverse_cons]
      refine orderedInsert_of_forall_not recipeIdDesc x xs.reverse ?_
      intro b hb
      exact Nat.not_le.2 (hx b (List.mem_reverse.1 hb))

/-- C3: every list endpoint returns exactly the requester's rows — the recipe
queryset is a permutation of the user-filtered recipe table sorted by primary
key descending (which is insertion-reverse, i.e. most-recent-first, whenever
the table is in insertion order), and the tag and ingredient querysets are
permutations of the corresponding user-filtered tables sorted by name
descending. -/
theorem c3_scoped_ordered_listing (db : DB) (u : Nat) (qp : QueryParams)
    (hins : db.recipes.Pairwise (fun a b => a.id < b.id)) :
    List.Perm (RecipeViewSet.get_queryset db u qp)
      (db.recipes.filter (fun r => r.user == u)) ∧
    List.Sorted recipeIdDesc (RecipeViewSet.get_queryset db u qp) ∧
    RecipeViewSet.get_queryset db u qp =
      (db.recipes.filter (fun r => r.user == u)).reverse ∧
    (RecipeViewSet.get_queryset db u qp).all (fun r => r.user == u) = true ∧
    List.Perm (TagViewSet.get_queryset db u qp)
      (db.tagStore.rows.filter (fun t => t.user == u)) ∧
    List.Sorted entityNameDesc (TagViewSet.get_queryset db u qp) ∧
    (TagViewSet.get_queryset db u qp).all (fun t => t.user == u) = true ∧
    List.Perm (IngredientViewSet.get_queryset db u qp)
      (db.ingStore.rows.filter (fun t => t.user == u)) ∧
    List.Sorted entityNameDesc (IngredientViewSet.get_queryset db u qp) ∧
    (IngredientViewSet.get_queryset db u qp).all (fun t => t.user == u)
      = true := by
  refine ⟨List.perm_insertionSort _ _, List.sorted_insertionSort _ _, ?_, ?_,
    List.perm_insertionSort _ _, List.sorted_insertionSort _ _, ?_,
    List.perm_insertionSort _ _, List.sorted_insertionSort _ _, ?_⟩
  · exact insertionSort_desc_eq_reverse _ (hins.filter _)
  · refine List.all_eq_true.2 ?_
    intro r hr
    have hmem := (List.perm_insertionSort recipeIdDesc
      (db.recipes.filter (fun r => r.user == u))).mem_iff.1 hr
    exact (List.mem_filter.1 hmem).2
  · refine List.all_eq_true.2 ?_
    intro t ht
    have hmem := (List.perm_insertionSort entityNameDesc
      (db.tagStore.rows.filter (fun t => t.user == u))).mem_iff.1 ht
    exact (List.mem_filter.1 hmem).2
  · refine List.all_eq_true.2 ?_
    intro t ht
    have hmem := (List.perm_insertionSort entityNameDesc
      (db.ingStore.rows.filter (fun t => t.user == u))).mem_iff.1 ht
    exact (List.mem_filter.1 hmem).2

/-- Witness for C3: on `listDb` (three recipes in insertion order, two users)
the hypothesis holds and the listing conclusions follow for requester `0`
with no query parameters. -/
theorem c3_scoped_ordered_listing_witness :
    listDb.recipes.Pairwise (fun a b => a.id < b.id) ∧
    (List.Perm (RecipeViewSet.get_queryset listDb 0 QueryParams.empty)
      (listDb.recipes.filter (fun r => r.user == 0)) ∧
    List.Sorted recipeIdDesc
      (RecipeViewSet.get_queryset listDb 0 QueryParams.empty) ∧
    RecipeViewSet.get_queryset listDb 0 QueryParams.empty =
      (listDb.recipes.filter (fun r => r.user == 0)).reverse ∧
    (RecipeViewSet.get_queryset listDb 0 QueryParams.empty).all
      (fun r => r.user == 0) = true ∧
    List.Perm (TagViewSet.get_queryset listDb 0 QueryParams.empty)
      (listDb.tagStore.rows.filter (fun t => t.user == 0)) ∧
    List.Sorted entityNameDesc
      (TagViewSet.get_queryset listDb 0 QueryParams.empty) ∧
    (TagViewSet.get_queryset listDb 0 QueryParams.empty).all
      (fun t => t.user == 0) = true ∧
    List.Perm (IngredientViewSet.get_queryset listDb 0 QueryParams.empty)
      (listDb.ingStore.rows.filter (fun t => t.user == 0)) ∧
    List.Sorted entityNameDesc
      (IngredientViewSet.get_queryset listDb 0 QueryParams.empty) ∧
    (IngredientViewSet.get_queryset listDb 0 QueryParams.empty).all
      (fun t => t.user == 0) = true) :=
  ⟨by decide, c3_scoped_ordered_listing listDb 0 QueryParams.empty (by decide)⟩

/-- C7: a recipe id owned by another user is invisible to the requester: a
detail fetch and a delete both answer 404 not-found (the same error any
nonexistent id produces, since both arise from the same failed queryset
lookup), the database is returned unchanged, and the other user's recipe is
still present. -/
theorem c7_cross_user_not_found (db : DB) (u pk : Nat) (r : Recipe)
    (hids : db.recipes.Pairwise (fun a b => a.id ≠ b.id))
    (hr : r ∈ db.recipes) (hpk : r.id = pk) (hu : r.user ≠ u) :
    RecipeViewSet.retrieve db u pk = Except.error HttpError.notFound ∧
    RecipeViewSet.destroy db u pk = (Except.error HttpError.notFound, db) ∧
    r ∈ (RecipeViewSet.destroy db u pk).2.recipes := by
  have hnone : RecipeViewSet.get_object db u pk = none := by
    unfold RecipeViewSet.get_object RecipeViewSet.get_queryset
    apply List.find?_eq_none.2
    intro x hx
    have hxf : x ∈ db.recipes.filter (fun r => r.user == u) :=
      (List.perm_insertionSort recipeIdDesc _).mem_iff.1 hx
    have hxr : x ∈ db.recipes := (List.mem_filter.1 hxf).1
    have hxu : x.user = u := by
      have hb := (List.mem_filter.1 hxf).2
      exact beq_iff_eq.1 hb
    simp only [beq_iff_eq]
    intro hxid
    have hxnr : x ≠ r := by
      intro he
      rw [he] at hxu
      exact hu hxu
    have hsym : Symmetric (fun a b : Recipe => a.id ≠ b.id) :=
      fun a b h he => h he.symm
    exact (hids.forall hsym hxr hr hxnr) (hxid.trans hpk.symm)
  refine ⟨?_, ?_, ?_⟩
  · unfold RecipeViewSet.retrieve
    rw [hnone]
  · unfold RecipeViewSet.destroy
    rw [hnone]
  · unfold RecipeViewSet.destroy
    rw [hnone]
    exact hr

/-- Witness for C7: on `crossDb` the only recipe (id 1) belongs to user `1`;
requester `0` gets 404 on fetch and delete and the recipe stays stored. -/
theorem c7_cross_user_not_found_witness :
    crossDb.recipes.Pairwise (fun a b => a.id ≠ b.id) ∧
    (⟨1, 1, "Other user recipe", "", 10, 250, ""⟩ : Recipe) ∈
      crossDb.recipes ∧
    (Recipe.id ⟨1, 1, "Other user recipe", "", 10, 250, ""⟩ = 1) ∧
    (Recipe.user ⟨1, 1, "Other user recipe", "", 10, 250, ""⟩ ≠ 0) ∧
    (RecipeViewSet.retrieve crossDb 0 1 = Except.error HttpError.notFound ∧
     RecipeViewSet.destroy crossDb 0 1 =
       (Except.error HttpError.notFound, crossDb) ∧
     (⟨1, 1, "Other user recipe", "", 10, 250, ""⟩ : Recipe) ∈
       (RecipeViewSet.destroy crossDb 0 1).2.recipes) :=
  ⟨by decide, by decide, by decide, by decide,
   c7_cross_user_not_found crossDb 0 1 ⟨1, 1, "Other user recipe", "", 10, 250, ""⟩
     (by decide) (by decide) (by decide) (by decide)⟩

/-- C5: the recipe list endpoint ignores its tag/ingredient filter
parameters.  On the fixture of `test_filtering_recipe_with_tags` — recipes 1
and 2 are tagged with tags 1 and 2, recipe 3 has no tag associations — the
queryset for `tags=[1,2]` still contains recipe 3 and is identical to the
unfiltered queryset, although the claim (and the repository's own test)
requires recipe 3 to be excluded. -/
theorem c5_filter_params_ignored :
    (⟨3, 0, "Fish and chips", "", 10, 500, ""⟩ : Recipe) ∈
      RecipeViewSet.get_queryset filterDb 0 ⟨some [1, 2], none, none⟩ ∧
    filterDb.tagStore.mems.all (fun p => p.1 != 3) = true ∧
    RecipeViewSet.get_queryset filterDb 0 ⟨some [1, 2], none, none⟩ =
      RecipeViewSet.get_queryset filterDb 0 QueryParams.empty := by
  decide

/-- C6: the tag and ingredient list endpoints ignore the `assigned_only`
parameter.  On the fixture of `test_filtering_tags_assigned_to_recipes` — tag
1 and ingredient 1 attached to recipe 1, tag 2 (`Lunch`) and ingredient 2
(`Turkey`) attached to nothing — the `assigned_only=1` querysets still contain
the unattached tag 2 and ingredient 2 and equal the unfiltered querysets,
although the claim (and the repository's own tests) requires only attached
entities to be returned. -/
theorem c6_assigned_only_ignored :
    (⟨2, 0, "Lunch"⟩ : Entity) ∈
      TagViewSet.get_queryset assignedDb 0 ⟨none, none, some 1⟩ ∧
    assignedDb.tagStore.mems.all (fun p => p.2 != 2) = true ∧
    TagViewSet.get_queryset assignedDb 0 ⟨none, none, some 1⟩ =
      TagViewSet.get_queryset assignedDb 0 QueryParams.empty ∧
    (⟨2, 0, "Turkey"⟩ : Entity) ∈
      IngredientViewSet.get_queryset assignedDb 0 ⟨none, none, some 1⟩ ∧
    assignedDb.ingStore.mems.all (fun p => p.2 != 2) = true ∧
    IngredientViewSet.get_queryset assignedDb 0 ⟨none, none, some 1⟩ =
      IngredientViewSet.get_queryset assignedDb 0 QueryParams.empty := by
  decide
